import Mathlib

/-!
Verification of the MinecraftModChecker compatibility-resolution core.

This file gives a shallow embedding, in Lean, of the resolution core of the
repository: the availability resolver `check_mod_version`
(src/modchecker/modrinth_api.py and src/mod_checker.py), the TTL file cache
(src/modchecker/cache.py), the version/loader search procedures
(src/modchecker/compatibility.py and src/mod_checker.py) and the dependency
closure walker `process_dependencies` (src/modchecker/downloader.py and
src/mod_checker.py), together with theorems settling the specification's
claims about them.

Modelling conventions:
* Python `None` becomes `Option.none`; a fallible network fetch becomes an
  `Except String` value supplied as an input (the `String` is the exception's
  human-readable text, `str(e)` in the source).
* Python sets are modelled as duplicate-free lists; where the source iterates
  a set whose iteration order is unobservable, the embedding either fixes a
  canonical order (noted at the definition) or takes the order as an explicit
  parameter (for `find_best_loader`, where the claim is precisely about that
  order).
* `packaging.version.parse` is external library code; it is modelled for the
  plain dotted numeric identifiers the repository compares ("1.19", "1.20.1"):
  such a string parses to its list of numeric components, compared
  lexicographically, and any other string parses to the minimal value `0.0.0`,
  exactly as `parse_minecraft_version` (src/modchecker/utils.py) catches
  `InvalidVersion` and substitutes `version.parse("0.0.0")`.
* An uncaught Python exception (the `IndexError` that `files[0]` would raise
  on a release with no files) is modelled by an `Option.none` result of the
  whole function; a caught exception is ordinary data, as in the source.
-/

/-- Split a character list at every `'.'` (the groups between dots, in
order); structural so that concrete evaluations reduce in the kernel. -/
def splitOnDot : List Char → List (List Char)
  | [] => [[]]
  | c :: rest =>
    if c == '.' then [] :: splitOnDot rest
    else
      match splitOnDot rest with
      | [] => [[c]]
      | g :: gs => (c :: g) :: gs

/-- Parse a non-empty all-digit character group as a decimal numeral. -/
def digitsToNat? (cs : List Char) : Option Nat :=
  if cs.isEmpty then none
  else
    cs.foldl
      (fun acc c =>
        match acc with
        | none => none
        | some n => if c.isDigit then some (n * 10 + (c.toNat - 48)) else none)
      (some 0)

/-- Model of `packaging.version.parse` restricted to plain dotted numeric
identifiers: "1.19.2" parses to `some [1, 19, 2]`; anything else (snapshots,
branch names) yields `none`. -/
def parseDotted (s : String) : Option (List Nat) :=
  (splitOnDot s.toList).mapM digitsToNat?

/-- `parse_minecraft_version` (src/modchecker/utils.py line 11, src/mod_checker.py
line 155): parse a version string, substituting the minimal value "0.0.0" for
identifiers `packaging` rejects, so sorting never fails. -/
def parse_minecraft_version (ver : String) : List Nat :=
  match parseDotted ver with
  | some l => l
  | none => [0, 0, 0]

/-- Lexicographic order on parsed version components: `verLE a b` holds when
version `a` is less than or equal to version `b`. This is the comparator
`packaging.version.Version` supplies for the dotted numeric identifiers in the
model's scope. -/
def verLE : List Nat → List Nat → Bool
  | [], _ => true
  | _ :: _, [] => false
  | a :: as, b :: bs => a < b || (a == b && verLE as bs)

/-- Stable descending insertion used to model Python's
`sorted(key=..., reverse=True)`: insert `x` before the first element it is
greater than or equal to under the key order. -/
def insertDesc (ge : α → α → Bool) (x : α) : List α → List α
  | [] => [x]
  | y :: ys => if ge x y then x :: y :: ys else y :: insertDesc ge x ys

/-- `sort_minecraft_versions` (src/modchecker/utils.py line 18, src/mod_checker.py
line 163): sort version strings in descending order of their parsed value.
The relative order of strings with equal parsed keys is immaterial to every
property proved below. -/
def sort_minecraft_versions (versions : List String) : List String :=
  versions.foldr
    (insertDesc (fun a b =>
      verLE (parse_minecraft_version b) (parse_minecraft_version a))) []

/-- Whether `pre` is an initial segment of `l`. -/
def startsWithChars : List Char → List Char → Bool
  | [], _ => true
  | _ :: _, [] => false
  | a :: as, b :: bs => a == b && startsWithChars as bs

/-- Whether `needle` occurs contiguously inside `haystack`. -/
def hasInfixChars : List Char → List Char → Bool
  | _, [] => true
  | [], _ :: _ => false
  | h :: rest, n :: ns =>
    startsWithChars (n :: ns) (h :: rest) || hasInfixChars rest (n :: ns)

/-- Substring test, modelling Python's `sub in s`. -/
def containsSub (s sub : String) : Bool :=
  hasInfixChars s.toList sub.toList

/-- `ModInfo` (src/modchecker/models.py line 12, src/mod_checker.py line 141):
the Availability record returned by the resolver. `loader_types`, a Python
`Optional[Set[str]]`, is modelled as an optional duplicate-free list. -/
structure ModInfo where
  name : String
  slug : String
  url : String
  versions : List String
  available : Bool
  version_id : Option String := none
  loader_types : Option (List String) := none
  download_url : Option String := none
  filename : Option String := none
  error : Option String := none
deriving DecidableEq

/-- `VersionCheckResult` (src/modchecker/models.py line 5): the record of one
probe during version-search escalation. -/
structure VersionCheckResult where
  version : String
  compatible : Bool
  incompatible_mods : List (String × List String)
deriving DecidableEq

/-- One file descriptor of a published release (`ver["files"][i]` in the
provider payload). -/
structure FileRec where
  url : String
  filename : String
deriving DecidableEq

/-- One published release as returned by the Metadata Provider
(`ver` in the `versions` payload scanned by `check_mod_version`). -/
structure VersionRec where
  id : String
  loaders : List String
  game_versions : List String
  files : List FileRec
deriving DecidableEq

/-- The raw provider dump cached under the `_all` key:
`{"project": ..., "versions": ...}`; only the project title is consumed. -/
structure AllData where
  title : String
  versions : List VersionRec
deriving DecidableEq

/-- Truthiness of an optional string, modelling `not x` on an
`Optional[str]` in Python: `None` and `""` are falsy. -/
def optStrTruthy : Option String → Bool
  | none => false
  | some s => !(s == "")

/-- Model of Python `set.add` on the duplicate-free-list representation:
append the element when absent. -/
def setInsert (s : List String) (x : String) : List String :=
  if s.contains x then s else s ++ [x]

/-- Model of Python `set.update` on the duplicate-free-list representation. -/
def setUpdate (s : List String) (xs : List String) : List String :=
  xs.foldl setInsert s

/-- The release scan of `check_mod_version`
(src/modchecker/modrinth_api.py lines 40-47): walk the provider-ordered
release list; the first release whose loader set contains `loader_type` and
whose game-version set contains `target_version` is the match; each
non-matching release's game versions and loaders are accumulated into the
fallback fields of the `ModInfo` under construction. -/
def scanLoop (loader_type target_version : String) :
    ModInfo → List VersionRec → Option VersionRec × ModInfo
  | st, [] => (none, st)
  | st, ver :: rest =>
    if ver.loaders.contains loader_type && ver.game_versions.contains target_version then
      (some ver, st)
    else
      scanLoop loader_type target_version
        { st with
          versions := st.versions ++ ver.game_versions,
          loader_types := some (setUpdate (st.loader_types.getD []) ver.loaders) }
        rest

/-- The cache-or-fetch step of `check_mod_version`
(src/modchecker/modrinth_api.py lines 15-30): use the cached raw dump when
present; otherwise perform the two provider requests (release list, then
project data), either of which may fail with a `RequestException`, and report
the dump that is to be written through to the cache. -/
def fetchAllData (cachedAll : Option AllData)
    (fetchVersions : Except String (List VersionRec))
    (fetchTitle : Except String String) :
    Except String (String × List VersionRec × Option AllData) :=
  match cachedAll with
  | some ad => Except.ok (ad.title, ad.versions, none)
  | none =>
    match fetchVersions with
    | Except.error e => Except.error e
    | Except.ok vs =>
      match fetchTitle with
      | Except.error e => Except.error e
      | Except.ok t => Except.ok (t, vs, some ⟨t, vs⟩)

/-- The fresh-computation path of `check_mod_version`
(src/modchecker/modrinth_api.py lines 32-56): scan the releases, then either
fill in the availability fields from the matching release (`none` models the
uncaught `IndexError` of `files[0]` on a release with no files) or leave the
record unavailable; finally deduplicate and sort the accumulated fallback
versions descending. -/
def freshModInfo (slug target_version loader_type title : String)
    (versions : List VersionRec) : Option ModInfo :=
  let st0 : ModInfo :=
    { name := title, slug := slug, url := "https://modrinth.com/mod/" ++ slug,
      versions := [], available := false }
  match scanLoop loader_type target_version st0 versions with
  | (some cv, st1) =>
    match cv.files with
    | [] => none
    | f :: _ =>
      some { st1 with
             available := true, version_id := some cv.id,
             download_url := some f.url, filename := some f.filename,
             versions := sort_minecraft_versions st1.versions.eraseDups }
  | (none, st1) =>
    some { st1 with versions := sort_minecraft_versions st1.versions.eraseDups }

/-- The dictionary written through to the per-mod cache file by
`check_mod_version` (src/modchecker/modrinth_api.py lines 58-74): every field
of the computed `ModInfo`, with `loader_types` replaced by `None` when it is
falsy (`list(mod_info.loader_types) if mod_info.loader_types else None`). -/
def truthyList : Option (List String) → Option (List String)
  | some (x :: xs) => some (x :: xs)
  | _ => none

/-- The stored form of a freshly computed Availability (see `truthyList`). -/
def storedOf (m : ModInfo) : ModInfo :=
  { m with loader_types := truthyList m.loader_types }

/-- The error-path result of `check_mod_version`
(src/modchecker/modrinth_api.py lines 78-86): a `RequestException` is caught
at the resolver boundary and converted into an unavailable `ModInfo` whose
`error` field carries the exception text. -/
def errorInfo (slug e : String) : ModInfo :=
  { name := slug, slug := slug, url := "https://modrinth.com/mod/" ++ slug,
    versions := [], available := false, error := some e }

/-- The full outcome of one `check_mod_version` call: the returned `ModInfo`
plus the two cache writes the call performs (the raw dump written by
`cache_all_data` and the resolved entry written by `cache_data`); `none`
means the corresponding write does not happen on that path. -/
structure CheckOutcome where
  result : ModInfo
  wroteAll : Option AllData
  wroteResolved : Option ModInfo
deriving DecidableEq

/-- `check_mod_version` (src/modchecker/modrinth_api.py lines 9-86,
src/mod_checker.py lines 259-334). Inputs are the two cache reads the call
would perform (`cachedResolved` is `get_cached_data(slug, target_version,
loader_type)` after TTL filtering; `cachedAll` is `get_all_data(slug)`) and
the outcomes of the two provider requests. The outer `Option` is `none`
exactly on the one uncaught-exception path (`files[0]` on an empty file
list). -/
def check_mod_version (cachedResolved : Option ModInfo) (cachedAll : Option AllData)
    (fetchVersions : Except String (List VersionRec))
    (fetchTitle : Except String String)
    (slug target_version loader_type : String) : Option CheckOutcome :=
  match cachedResolved with
  | some m => some ⟨m, none, none⟩
  | none =>
    match fetchAllData cachedAll fetchVersions fetchTitle with
    | Except.error e => some ⟨errorInfo slug e, none, none⟩
    | Except.ok (title, versions, wAll) =>
      match freshModInfo slug target_version loader_type title versions with
      | none => none
      | some mi => some ⟨mi, wAll, some (storedOf mi)⟩

/-- The Availability invariant stated by the specification: `available = true`
implies `version_id`, `download_url` and `filename` are all present, and
`available = false` implies all three are absent. -/
def availInvariant (m : ModInfo) : Prop :=
  (m.available = true →
    m.version_id.isSome = true ∧ m.download_url.isSome = true ∧ m.filename.isSome = true) ∧
  (m.available = false →
    m.version_id = none ∧ m.download_url = none ∧ m.filename = none)

instance (m : ModInfo) : Decidable (availInvariant m) := by
  unfold availInvariant; infer_instance

/-- One value stored under a key of a per-mod cache file
(src/modchecker/cache.py): `{"cached_at": ..., "data": ...}`. A field is
`none` when the stored object lacks that key, in which case the Python reader
raises `KeyError` inside its `try` block. -/
structure CacheEntry (α : Type) where
  cached_at : Option Int
  data : Option α
deriving DecidableEq

/-- The observable states of one per-mod cache file
(src/modchecker/cache.py): missing, unreadable-or-unparseable (reading it
raises `OSError` or `json.loads` raises `JSONDecodeError`), or a parsed JSON
object mapping keys to entries that may themselves lack expected fields. -/
inductive CacheFile (α : Type) where
  | absent : CacheFile α
  | malformed : CacheFile α
  | parsed : List (String × CacheEntry α) → CacheFile α
deriving DecidableEq

/-- `CACHE_DURATION` (src/modchecker/cache.py line 8): one hour. -/
def CACHE_DURATION : Int := 3600

/-- `ModrinthCache.get_all_data` (src/modchecker/cache.py lines 26-38): read
the per-mod file, look up the `{slug}_all` key, and return the payload when
the entry is younger than the TTL; every failure (missing file, unparseable
JSON, missing key, missing `cached_at` or `data` field, stale entry) falls
through to `None`. The function is total: the source's
`except (json.JSONDecodeError, KeyError)` is the `none` result of the
corresponding match arms. -/
def get_all_data {α : Type} (file : CacheFile α) (now : Int) (mod_slug : String) :
    Option α :=
  match file with
  | CacheFile.absent => none
  | CacheFile.malformed => none
  | CacheFile.parsed entries =>
    match entries.lookup (mod_slug ++ "_all") with
    | none => none
    | some entry =>
      match entry.cached_at with
      | none => none
      | some t =>
        if now - t < CACHE_DURATION then
          match entry.data with
          | none => none
          | some d => some d
        else none

/-- `ModrinthCache.get_cached_data` (src/modchecker/cache.py lines 56-69):
identical to `get_all_data` but keyed on `{version}_{loader}`; additionally
catches `OSError` (covered by the `malformed` state). -/
def get_cached_data {α : Type} (file : CacheFile α) (now : Int)
    (version loader : String) : Option α :=
  match file with
  | CacheFile.absent => none
  | CacheFile.malformed => none
  | CacheFile.parsed entries =>
    match entries.lookup (version ++ "_" ++ loader) with
    | none => none
    | some entry =>
      match entry.cached_at with
      | none => none
      | some t =>
        if now - t < CACHE_DURATION then
          match entry.data with
          | none => none
          | some d => some d
        else none

/-- Python dict assignment `d[k] = v` on the association-list model of a JSON
object: replace the entry for `k` when present, otherwise append it. -/
def setKey {α : Type} : List (String × CacheEntry α) → String → CacheEntry α →
    List (String × CacheEntry α)
  | [], k, v => [(k, v)]
  | (k', v') :: rest, k, v =>
    if k' == k then (k, v) :: rest else (k', v') :: setKey rest k v

/-- `ModrinthCache.cache_data` (src/modchecker/cache.py lines 71-88): read
the existing file (an unreadable or unparseable file is replaced by the empty
object `{}`), assign the `{version}_{loader}` key to a fresh timestamped
entry, and rewrite the whole object. -/
def cache_data {α : Type} (file : CacheFile α) (now : Int)
    (version loader : String) (d : α) : CacheFile α :=
  let base : List (String × CacheEntry α) :=
    match file with
    | CacheFile.absent => []
    | CacheFile.malformed => []
    | CacheFile.parsed entries => entries
  CacheFile.parsed (setKey base (version ++ "_" ++ loader) ⟨some now, some d⟩)

/-- `ModrinthCache.cache_all_data` (src/modchecker/cache.py lines 40-54): the
same read-merge-rewrite on the `{slug}_all` key. -/
def cache_all_data {α : Type} (file : CacheFile α) (now : Int)
    (mod_slug : String) (d : α) : CacheFile α :=
  let base : List (String × CacheEntry α) :=
    match file with
    | CacheFile.absent => []
    | CacheFile.malformed => []
    | CacheFile.parsed entries => entries
  CacheFile.parsed (setKey base (mod_slug ++ "_all") ⟨some now, some d⟩)

/-- One mod reference from the input file (`{"name", "url", "slug"}` dict
produced by `extract_modrinth_links`); the search procedures consume its
`slug`. -/
structure ModRef where
  name : String
  url : String
  slug : String
deriving DecidableEq

/-- `check_loader_compatibility` (src/modchecker/compatibility.py lines 46-54,
src/mod_checker.py lines 615-624): resolve every mod at `(version, loader)`
through the resolver oracle `check` (one `check_mod_version` call per mod),
returning the results in input order together with the count of available
ones. -/
def check_loader_compatibility (check : String → String → String → ModInfo)
    (mods : List ModRef) (version loader : String) : List ModInfo × Nat :=
  match mods with
  | [] => ([], 0)
  | mod :: rest =>
    let result := check mod.slug version loader
    let rc := check_loader_compatibility check rest version loader
    (result :: rc.1, if result.available then rc.2 + 1 else rc.2)

/-- The compatible-mod count of one loader, the quantity `find_best_loader`
maximises. -/
def loaderCount (check : String → String → String → ModInfo)
    (mods : List ModRef) (version loader : String) : Nat :=
  (check_loader_compatibility check mods version loader).2

/-- Python dict assignment on the `loader_stats` association list of
`find_best_loader`. -/
def statSet : List (String × Nat) → String → Nat → List (String × Nat)
  | [], k, v => [(k, v)]
  | (k', v') :: rest, k, v =>
    if k' == k then (k, v) :: rest else (k', v') :: statSet rest k v

/-- The `is_better` test of `find_best_loader`
(src/modchecker/compatibility.py lines 73-80, src/mod_checker.py lines
641-650): strictly more compatible mods always wins; on a tie, the current
loader wins, else a non-empty preferred loader wins. -/
def fbl_better (compatible_count best_count : Nat)
    (loader current_loader : String) (preferred_loader : Option String) : Bool :=
  if compatible_count > best_count then true
  else if compatible_count == best_count then
    if loader == current_loader then true
    else
      match preferred_loader with
      | some p => !(p == "") && loader == p
      | none => false
  else false

/-- The running state of the `for loader in all_loaders` loop of
`find_best_loader`. -/
structure FBLState where
  best_loader : String
  best_count : Nat
  best_results : List ModInfo
  loader_stats : List (String × Nat)
deriving DecidableEq

/-- One iteration of the `find_best_loader` loop body
(src/modchecker/compatibility.py lines 69-84). -/
def fbl_step (check : String → String → String → ModInfo) (mods : List ModRef)
    (version current_loader : String) (preferred_loader : Option String)
    (st : FBLState) (loader : String) : FBLState :=
  let rc := check_loader_compatibility check mods version loader
  let stats' := statSet st.loader_stats loader rc.2
  if fbl_better rc.2 st.best_count loader current_loader preferred_loader then
    ⟨loader, rc.2, rc.1, stats'⟩
  else
    { st with loader_stats := stats' }

/-- `find_best_loader` (src/modchecker/compatibility.py lines 57-86,
src/mod_checker.py lines 626-657). The source iterates the Python set
`{"fabric", "forge", "neoforge", "quilt"}`, whose iteration order is
unspecified; the embedding therefore takes that order as the explicit
parameter `loader_order`. Initial state: `best_loader = current_loader`,
`best_count = 0`, empty results and stats. -/
def find_best_loader (check : String → String → String → ModInfo)
    (loader_order : List String) (mods : List ModRef)
    (version current_loader : String) (preferred_loader : Option String) :
    String × List ModInfo × List (String × Nat) :=
  let fin := loader_order.foldl
    (fbl_step check mods version current_loader preferred_loader)
    ⟨current_loader, 0, [], []⟩
  (fin.best_loader, fin.best_results, fin.loader_stats)

/-- The canonical element listing of the loader set
`{"fabric", "forge", "neoforge", "quilt"}`. -/
def allLoaders : List String := ["fabric", "forge", "neoforge", "quilt"]

/-- The version sets `[set(mod.versions) for mod in mods if mod.versions]`
built by both `find_common_version` implementations. -/
def common_version_sets (mods : List ModInfo) : List (List String) :=
  (mods.filter (fun m => !m.versions.isEmpty)).map (fun m => m.versions.eraseDups)

/-- `set.intersection(*mod_versions)` on the list-of-lists model: the
elements of the first set present in all the others. -/
def intersectAll : List (List String) → List String
  | [] => []
  | s :: rest => s.filter (fun v => rest.all (fun s2 => s2.contains v))

/-- `find_common_version` as defined in src/mod_checker.py lines 596-613:
intersect all version sets, drop snapshot-like identifiers, sort descending,
and return `sorted_versions[0]` — the NEWEST mutually-supported version
(despite the docstring's "oldest"). -/
def mc_find_common_version (mods : List ModInfo) : Option String :=
  if mods.isEmpty then none
  else
    let mod_versions := common_version_sets mods
    if mod_versions.isEmpty then none
    else
      let common_versions := intersectAll mod_versions
      if common_versions.isEmpty then none
      else
        (sort_minecraft_versions
          (common_versions.filter
            (fun v => !(containsSub v "w") && !(containsSub v "snapshot")))).head?

/-- `find_common_version` as defined in src/modchecker/compatibility.py lines
89-99: the same computation but returning `sorted_versions[-1]` — the OLDEST
mutually-supported version. -/
def compat_find_common_version (mods : List ModInfo) : Option String :=
  if mods.isEmpty then none
  else
    let mod_versions := common_version_sets mods
    if mod_versions.isEmpty then none
    else
      let common_versions := intersectAll mod_versions
      if common_versions.isEmpty then none
      else
        (sort_minecraft_versions
          (common_versions.filter
            (fun v => !(containsSub v "w") && !(containsSub v "snapshot")))).getLast?

/-- `check_version_compatibility` (src/modchecker/compatibility.py lines
8-15, src/mod_checker.py lines 167-180): resolve every mod at
`(test_version, loader_type)` and record the unavailable ones with their
fallback version lists. -/
def check_version_compatibility (check : String → String → String → ModInfo)
    (mods_info : List ModInfo) (test_version loader_type : String) :
    VersionCheckResult :=
  let incompatible_mods := mods_info.foldl
    (fun acc mod =>
      let result := check mod.slug test_version loader_type
      if result.available then acc else acc ++ [(mod.name, result.versions)])
    []
  ⟨test_version, incompatible_mods.length == 0, incompatible_mods⟩

/-- The candidate list probed by `find_next_compatible_version`
(src/modchecker/compatibility.py lines 24-32): the union of all mods'
fallback versions, sorted descending, and — when downgrades are disallowed —
filtered to versions whose parsed value is at least the current one.
The union of Python sets is modelled as concatenation followed by
deduplication; the resulting order among equal parse keys is immaterial. -/
def fncv_candidates (mods_info : List ModInfo) (current_version : String)
    (allow_downgrade : Bool) : List String :=
  let sorted_versions := sort_minecraft_versions
    ((mods_info.foldl (fun acc mod => acc ++ mod.versions) []).eraseDups)
  if !allow_downgrade then
    sorted_versions.filter
      (fun v => verLE (parse_minecraft_version current_version)
        (parse_minecraft_version v))
  else sorted_versions

/-- The probe loop of `find_next_compatible_version`
(src/modchecker/compatibility.py lines 34-43): skip the current version
itself, probe each remaining candidate in order, accumulate the trail of
`VersionCheckResult`s, and stop at the first fully compatible candidate. -/
def fncv_loop (check : String → String → String → ModInfo)
    (mods_info : List ModInfo) (current_version loader_type : String) :
    List String → List VersionCheckResult →
    Option String × List VersionCheckResult
  | [], version_checks => (none, version_checks)
  | test_version :: rest, version_checks =>
    if test_version == current_version then
      fncv_loop check mods_info current_version loader_type rest version_checks
    else
      let check_result :=
        check_version_compatibility check mods_info test_version loader_type
      let version_checks' := version_checks ++ [check_result]
      if check_result.compatible then (some test_version, version_checks')
      else fncv_loop check mods_info current_version loader_type rest version_checks'

/-- `find_next_compatible_version` (src/modchecker/compatibility.py lines
18-43, src/mod_checker.py lines 182-210). -/
def find_next_compatible_version (check : String → String → String → ModInfo)
    (mods_info : List ModInfo) (current_version loader_type : String)
    (allow_downgrade : Bool) : Option String × List VersionCheckResult :=
  fncv_loop check mods_info current_version loader_type
    (fncv_candidates mods_info current_version allow_downgrade) []

/-- The collaborators of the dependency closure walker: `deps v` is
`get_mod_dependencies(v)` — the required-dependency records of release `v`,
each carrying `dep.get("project_id")` which may be absent — and `check` is
the resolver oracle, one `check_mod_version` call per invocation. -/
structure DepEnv where
  deps : String → List (Option String)
  check : String → String → String → ModInfo

/-- The outcome of one dependency walk: the flat result list returned by
`process_dependencies`, the final contents of the shared `processed_mods`
set (as a list, newest first), and the trace of dependency project ids that
entered the per-dependency processing branch (`processed_mods.add`, name
lookup, `check_mod_version`, download, recursion) in the order they were
processed. -/
structure PDResult where
  results : List ModInfo
  processed : List String
  trace : List String
deriving DecidableEq

/-- The guard of `process_dependencies`
(src/modchecker/downloader.py line 63): `if not mod_info.version_id or not
mod_info.available: return []`. -/
def pd_guard (mi : ModInfo) : Bool :=
  optStrTruthy mi.version_id && mi.available

/-- The `for dep in dependencies` loop of `process_dependencies`
(src/modchecker/downloader.py lines 72-89, src/mod_checker.py lines
466-484), parameterised by the recursive call `recurse` made on an available
dependency. A dependency with no project id, or one already in the shared
`processed_mods` set, is skipped. A fresh one is added to the set and
resolved; an available result is appended to the output followed by its
recursively collected nested dependencies, while an UNAVAILABLE result is
not appended at all — only the set and the trace record it. -/
def pd_loop (env : DepEnv) (version loader : String)
    (recurse : ModInfo → List String → PDResult) :
    List (Option String) → List String → PDResult
  | [], processed => ⟨[], processed, []⟩
  | dep :: rest, processed =>
    match dep with
    | none => pd_loop env version loader recurse rest processed
    | some dep_id =>
      if dep_id ∈ processed then
        pd_loop env version loader recurse rest processed
      else
        let processed1 := dep_id :: processed
        let dep_result := env.check dep_id version loader
        if dep_result.available then
          let nested := recurse dep_result processed1
          let restRes := pd_loop env version loader recurse rest nested.processed
          ⟨dep_result :: (nested.results ++ restRes.results), restRes.processed,
            dep_id :: (nested.trace ++ restRes.trace)⟩
        else
          let restRes := pd_loop env version loader recurse rest processed1
          ⟨restRes.results, restRes.processed, dep_id :: restRes.trace⟩

/-- The recursion of `process_dependencies`, made structural on an explicit
depth bound: `pd_go (fuel + 1)` runs the loop with the genuine recursive
call at depth bound `fuel`, while `pd_go 0` cuts recursion off (the Python
original has no such bound; every theorem below holds for every bound, and
concrete evaluations use a bound exceeding the input's depth). -/
def pd_go (env : DepEnv) (version loader : String) :
    Nat → List (Option String) → List String → PDResult
  | 0 => pd_loop env version loader (fun _ p => ⟨[], p, []⟩)
  | fuel + 1 => pd_loop env version loader
      (fun mi p =>
        if pd_guard mi then
          pd_go env version loader fuel (env.deps (mi.version_id.getD "")) p
        else ⟨[], p, []⟩)

/-- `process_dependencies` (src/modchecker/downloader.py lines 55-90,
src/mod_checker.py lines 453-486): refuse records without a truthy
`version_id` or not available, otherwise walk the required dependencies of
the record's release. -/
def process_dependencies (env : DepEnv) (version loader : String) (fuel : Nat)
    (mod_info : ModInfo) (processed : List String) : PDResult :=
  if pd_guard mod_info then
    pd_go env version loader fuel (env.deps (mod_info.version_id.getD "")) processed
  else ⟨[], processed, []⟩

/-- A concrete available Availability used in concrete evaluations. -/
def availMod (slug vid : String) : ModInfo :=
  { name := "M-" ++ slug, slug := slug, url := "u", versions := [],
    available := true, version_id := some vid, download_url := some "d",
    filename := some ("f-" ++ slug) }

/-- A concrete unavailable Availability used in concrete evaluations. -/
def unavailMod (slug : String) : ModInfo :=
  { name := "M-" ++ slug, slug := slug, url := "u",
    versions := ["1.19"], available := false }

/-- A concrete dependency environment: the root release "rootv" requires the
projects "d1" and "d2"; "d1" resolves unavailable at the target pair, "d2"
resolves available with a release "d2v" that has no further dependencies. -/
def envTwoDeps : DepEnv where
  deps := fun vid => if vid == "rootv" then [some "d1", some "d2"] else []
  check := fun slug _ _ =>
    if slug == "d2" then availMod "d2" "d2v" else unavailMod slug

/-- A concrete dependency environment with the cycle A→B→A: release "va" of
project "a" requires project "b", whose release "vb" requires project "a"
again. -/
def envCycle : DepEnv where
  deps := fun vid =>
    if vid == "va" then [some "b"] else if vid == "vb" then [some "a"] else []
  check := fun slug _ _ =>
    if slug == "a" then availMod "a" "va"
    else if slug == "b" then availMod "b" "vb"
    else unavailMod slug

/-- A resolver oracle for loader-search evaluations: the single mod "m1" is
available exactly under the loaders "forge" and "quilt". -/
def loaderOracle : String → String → String → ModInfo :=
  fun slug _ loader =>
    if loader == "forge" || loader == "quilt" then availMod slug ("v-" ++ slug)
    else unavailMod slug

/-- The single-mod list used in loader-search evaluations. -/
def oneModRef : List ModRef := [⟨"M", "u", "m1"⟩]

/-- Two packages both supporting exactly the versions "1.19" and "1.18",
the scenario of the specification's common-version disagreement. -/
def pairMods : List ModInfo :=
  [{ name := "A", slug := "a", url := "u", versions := ["1.19", "1.18"],
     available := true },
   { name := "B", slug := "b", url := "u", versions := ["1.19", "1.18"],
     available := true }]

/-- A package supporting "1.20" and "1.21", used to evaluate the version
search at current version "1.20". -/
def upgradeMod : ModInfo :=
  { name := "A", slug := "a", url := "u", versions := ["1.20", "1.21"],
    available := true }

theorem scanLoop_preserves_fields (loader_type target_version : String) :
    ∀ (vs : List VersionRec) (st : ModInfo),
      (scanLoop loader_type target_version st vs).2.available = st.available ∧
      (scanLoop loader_type target_version st vs).2.version_id = st.version_id ∧
      (scanLoop loader_type target_version st vs).2.download_url = st.download_url ∧
      (scanLoop loader_type target_version st vs).2.filename = st.filename := by
  intro vs
  induction vs with
  | nil => intro st; exact ⟨rfl, rfl, rfl, rfl⟩
  | cons v rest ih =>
    intro st
    simp only [scanLoop]
    split
    · exact ⟨rfl, rfl, rfl, rfl⟩
    · exact ih _

theorem freshModInfo_invariant (slug tv lt title : String)
    (versions : List VersionRec) (mi : ModInfo)
    (h : freshModInfo slug tv lt title versions = some mi) :
    availInvariant mi := by
  simp only [freshModInfo] at h
  split at h
  next cv st1 heq =>
    split at h
    · exact absurd h (by simp)
    next f fs hfiles =>
      cases h
      exact ⟨fun _ => ⟨rfl, rfl, rfl⟩, fun hfalse => by simp at hfalse⟩
  next st1 heq =>
    cases h
    have hp := scanLoop_preserves_fields lt tv versions
      { name := title, slug := slug, url := "https://modrinth.com/mod/" ++ slug,
        versions := [], available := false }
    rw [heq] at hp
    refine ⟨fun htrue => ?_, fun _ => ⟨hp.2.1, hp.2.2.1, hp.2.2.2⟩⟩
    rw [show ({ st1 with
        versions := sort_minecraft_versions st1.versions.eraseDups } : ModInfo).available
      = st1.available from rfl] at htrue
    rw [hp.1] at htrue
    cases htrue

/-- C1: every Availability returned by the resolver `check_mod_version` — on
the fresh-computation path, the transport-error path, and the cache-hit path
(whose entries are resolver-written and hence assumed to satisfy the
invariant) — satisfies the availability invariant: `available = true` implies
`version_id`, `download_url` and `filename` are all present, and
`available = false` implies all three are absent. -/
theorem check_mod_version_availability_invariant
    (cr : Option ModInfo) (ca : Option AllData)
    (fv : Except String (List VersionRec)) (ft : Except String String)
    (slug tv lt : String) (out : CheckOutcome)
    (hcache : ∀ m, cr = some m → availInvariant m)
    (h : check_mod_version cr ca fv ft slug tv lt = some out) :
    availInvariant out.result := by
  cases cr with
  | some m =>
    obtain rfl : (⟨m, none, none⟩ : CheckOutcome) = out := Option.some.inj h
    exact hcache m rfl
  | none =>
    simp only [check_mod_version] at h
    split at h
    next e heq =>
      obtain rfl := Option.some.inj h
      exact ⟨fun hfalse => by simp [errorInfo] at hfalse, fun _ => ⟨rfl, rfl, rfl⟩⟩
    next title versions wAll heq =>
      split at h
      next hm => cases h
      next mi hm =>
        obtain rfl := Option.some.inj h
        exact freshModInfo_invariant slug tv lt title versions mi hm

/-- Concrete instantiation of the C1 invariant theorem: a fresh computation
over an empty release list yields an unavailable record with all three
download fields absent. -/
theorem check_mod_version_availability_invariant_witness :
    availInvariant { name := "T", slug := "s", url := "https://modrinth.com/mod/s",
                     versions := [], available := false } :=
  check_mod_version_availability_invariant none (some ⟨"T", []⟩)
    (Except.ok []) (Except.ok "T") "s" "1.20" "fabric"
    ⟨{ name := "T", slug := "s", url := "https://modrinth.com/mod/s",
       versions := [], available := false },
     none,
     some { name := "T", slug := "s", url := "https://modrinth.com/mod/s",
            versions := [], available := false }⟩
    (fun m hm => nomatch hm) (by decide)

/-- C7: when obtaining the package's metadata fails (either provider request
raising a `RequestException`), `check_mod_version` does not raise across the
resolver boundary: it returns (`some`, i.e. without an uncaught exception) an
Availability with `available = false`, an empty versions list, no loader set,
and `error` set to the exception's text, and performs no cache write. -/
theorem check_mod_version_fetch_failure_returns_data
    (ca : Option AllData) (fv : Except String (List VersionRec))
    (ft : Except String String) (slug tv lt e : String)
    (hall : ca = none)
    (hfail : fv = Except.error e ∨ ∃ vs, fv = Except.ok vs ∧ ft = Except.error e) :
    check_mod_version none ca fv ft slug tv lt = some ⟨errorInfo slug e, none, none⟩ ∧
    (errorInfo slug e).available = false ∧ (errorInfo slug e).versions = [] ∧
    (errorInfo slug e).loader_types = none ∧ (errorInfo slug e).error = some e := by
  subst hall
  refine ⟨?_, rfl, rfl, rfl, rfl⟩
  rcases hfail with hfv | ⟨vs, hfv, hft⟩
  · subst hfv; rfl
  · subst hfv; subst hft; rfl

/-- Concrete instantiation of the C7 theorem at a failing first request. -/
theorem check_mod_version_fetch_failure_returns_data_witness :
    check_mod_version none none (Except.error "connection refused")
      (Except.ok "T") "sodium" "1.20" "fabric"
      = some ⟨errorInfo "sodium" "connection refused", none, none⟩ ∧
    (errorInfo "sodium" "connection refused").available = false ∧
    (errorInfo "sodium" "connection refused").versions = [] ∧
    (errorInfo "sodium" "connection refused").loader_types = none ∧
    (errorInfo "sodium" "connection refused").error = some "connection refused" :=
  check_mod_version_fetch_failure_returns_data none
    (Except.error "connection refused") (Except.ok "T")
    "sodium" "1.20" "fabric" "connection refused" rfl (Or.inl rfl)

/-- C9: with a warm cache (a resolved entry present for the queried
`(slug, version, loader)`), `check_mod_version` returns exactly the cached
Availability and performs no cache write, so calling it twice — whatever the
surrounding fetch environment of the second call — returns field-for-field
identical Availability values. -/
theorem check_mod_version_warm_cache_idempotent
    (cr : Option ModInfo) (m : ModInfo) (ca ca2 : Option AllData)
    (fv fv2 : Except String (List VersionRec)) (ft ft2 : Except String String)
    (slug tv lt : String) (hwarm : cr = some m) :
    check_mod_version cr ca fv ft slug tv lt = some ⟨m, none, none⟩ ∧
    check_mod_version cr ca2 fv2 ft2 slug tv lt = some ⟨m, none, none⟩ := by
  subst hwarm
  exact ⟨rfl, rfl⟩

/-- Concrete instantiation of the C9 idempotence theorem. -/
theorem check_mod_version_warm_cache_idempotent_witness :
    check_mod_version (some (availMod "sodium" "v1")) none
      (Except.error "net down") (Except.error "net down") "sodium" "1.20" "fabric"
      = some ⟨availMod "sodium" "v1", none, none⟩ ∧
    check_mod_version (some (availMod "sodium" "v1")) (some ⟨"T", []⟩)
      (Except.ok []) (Except.ok "T") "sodium" "1.20" "fabric"
      = some ⟨availMod "sodium" "v1", none, none⟩ :=
  check_mod_version_warm_cache_idempotent (some (availMod "sodium" "v1"))
    (availMod "sodium" "v1") none (some ⟨"T", []⟩) (Except.error "net down")
    (Except.ok []) (Except.error "net down") (Except.ok "T")
    "sodium" "1.20" "fabric" rfl

theorem setKey_lookup_ne {α : Type} (k k' : String) (v : CacheEntry α)
    (hne : k ≠ k') :
    ∀ entries : List (String × CacheEntry α),
      (setKey entries k' v).lookup k = entries.lookup k := by
  have hkk : (k == k') = false := beq_eq_false_iff_ne.mpr hne
  intro entries
  induction entries with
  | nil => simp [setKey, List.lookup, hkk]
  | cons p rest ih =>
    obtain ⟨pk, pv⟩ := p
    simp only [setKey]
    split
    next hpk =>
      have hpk' : pk = k' := by simpa using hpk
      subst hpk'
      simp [List.lookup, hkk]
    next hpk =>
      simp only [List.lookup]
      cases hkp : k == pk
      · simpa [hkp] using ih
      · rfl

theorem setKey_lookup_self {α : Type} (k : String) (v : CacheEntry α) :
    ∀ entries : List (String × CacheEntry α),
      (setKey entries k v).lookup k = some v := by
  intro entries
  induction entries with
  | nil => simp [setKey, List.lookup]
  | cons p rest ih =>
    obtain ⟨pk, pv⟩ := p
    simp only [setKey]
    split
    next hpk => simp [List.lookup]
    next hpk =>
      have hne : k ≠ pk := fun h => hpk (by simp [h])
      have hkp : (k == pk) = false := beq_eq_false_iff_ne.mpr hne
      simp [List.lookup, hkp, ih]

/-- C8: a malformed stored payload — an unparseable cache file, or a
looked-up entry lacking its expected `cached_at`/`data` structure — is
treated as a cache miss by both reads: `get_all_data` and `get_cached_data`
return `none` (and, being total functions whose `except` clauses are the
`none` arms, never raise), so the caller falls through to a live fetch. -/
theorem cache_read_malformed_is_miss {α : Type} (file : CacheFile α)
    (now : Int) (mod_slug version loader : String)
    (hbad : file = CacheFile.malformed ∨
      ∃ entries, file = CacheFile.parsed entries ∧
        ∀ entry : CacheEntry α,
          (entries.lookup (mod_slug ++ "_all") = some entry ∨
           entries.lookup (version ++ "_" ++ loader) = some entry) →
          entry.cached_at = none ∨ entry.data = none) :
    get_all_data file now mod_slug = none ∧
    get_cached_data file now version loader = none := by
  rcases hbad with h | ⟨entries, hfile, hent⟩
  · subst h; exact ⟨rfl, rfl⟩
  · subst hfile
    constructor
    · simp only [get_all_data]
      split
      · rfl
      next entry hl =>
        rcases hent entry (Or.inl hl) with hc | hd
        · simp [hc]
        · rw [hd]
          cases hct : entry.cached_at with
          | none => rfl
          | some t => simp
    · simp only [get_cached_data]
      split
      · rfl
      next entry hl =>
        rcases hent entry (Or.inr hl) with hc | hd
        · simp [hc]
        · rw [hd]
          cases hct : entry.cached_at with
          | none => rfl
          | some t => simp

/-- Concrete instantiation of the C8 theorem: one entry lacking both fields
and one fresh entry lacking its `data` field both read back as misses. -/
theorem cache_read_malformed_is_miss_witness :
    get_all_data
      (CacheFile.parsed [("s_all", (⟨none, none⟩ : CacheEntry Nat)),
        ("1.20_fabric", ⟨some 0, none⟩)]) 1 "s" = none ∧
    get_cached_data
      (CacheFile.parsed [("s_all", (⟨none, none⟩ : CacheEntry Nat)),
        ("1.20_fabric", ⟨some 0, none⟩)]) 1 "1.20" "fabric" = none :=
  cache_read_malformed_is_miss _ 1 "s" "1.20" "fabric"
    (Or.inr ⟨_, rfl, by
      intro entry h
      rcases h with h | h
      · have hl : ([("s_all", (⟨none, none⟩ : CacheEntry Nat)),
            ("1.20_fabric", ⟨some 0, none⟩)]).lookup ("s" ++ "_all")
            = some ⟨none, none⟩ := by decide
        rw [hl] at h
        cases h
        exact Or.inl rfl
      · have hl : ([("s_all", (⟨none, none⟩ : CacheEntry Nat)),
            ("1.20_fabric", ⟨some 0, none⟩)]).lookup ("1.20" ++ "_" ++ "fabric")
            = some ⟨some 0, none⟩ := by decide
        rw [hl] at h
        cases h
        exact Or.inr rfl⟩)

/-- C10: writing one resolved entry with `cache_data` rewrites the parsed
file with only the written key replaced — every other key, including the
raw `_all` dump, reads back unchanged, and the written key holds the fresh
entry — except that an unparseable existing file is replaced wholesale, its
previously stored entries discarded; `cache_all_data` behaves identically
for the `_all` key. -/
theorem cache_write_frame {α : Type} (entries : List (String × CacheEntry α))
    (now : Int) (version loader mod_slug : String) (d : α) (k : String)
    (hk1 : k ≠ version ++ "_" ++ loader) (hk2 : k ≠ mod_slug ++ "_all") :
    (cache_data (CacheFile.parsed entries) now version loader d
      = CacheFile.parsed
        (setKey entries (version ++ "_" ++ loader) ⟨some now, some d⟩)) ∧
    ((setKey entries (version ++ "_" ++ loader)
        (⟨some now, some d⟩ : CacheEntry α)).lookup k = entries.lookup k) ∧
    ((setKey entries (version ++ "_" ++ loader)
        (⟨some now, some d⟩ : CacheEntry α)).lookup (version ++ "_" ++ loader)
      = some ⟨some now, some d⟩) ∧
    (cache_data (CacheFile.malformed : CacheFile α) now version loader d
      = CacheFile.parsed [(version ++ "_" ++ loader, ⟨some now, some d⟩)]) ∧
    (cache_all_data (CacheFile.parsed entries) now mod_slug d
      = CacheFile.parsed (setKey entries (mod_slug ++ "_all") ⟨some now, some d⟩)) ∧
    ((setKey entries (mod_slug ++ "_all")
        (⟨some now, some d⟩ : CacheEntry α)).lookup k = entries.lookup k) ∧
    ((setKey entries (mod_slug ++ "_all")
        (⟨some now, some d⟩ : CacheEntry α)).lookup (mod_slug ++ "_all")
      = some ⟨some now, some d⟩) ∧
    (cache_all_data (CacheFile.malformed : CacheFile α) now mod_slug d
      = CacheFile.parsed [(mod_slug ++ "_all", ⟨some now, some d⟩)]) :=
  ⟨rfl, setKey_lookup_ne k _ _ hk1 entries, setKey_lookup_self _ _ entries, rfl,
   rfl, setKey_lookup_ne k _ _ hk2 entries, setKey_lookup_self _ _ entries, rfl⟩

/-- Concrete instantiation of the C10 frame theorem: writing the resolved
entry `1.19_fabric` leaves the sibling resolved entry and the `_all` dump
untouched. -/
theorem cache_write_frame_witness :
    (cache_data
        (CacheFile.parsed [("1.18_forge", (⟨some 1, some 10⟩ : CacheEntry Nat)),
          ("s_all", ⟨some 2, some 20⟩)]) 7 "1.19" "fabric" 42
      = CacheFile.parsed
        (setKey [("1.18_forge", (⟨some 1, some 10⟩ : CacheEntry Nat)),
          ("s_all", ⟨some 2, some 20⟩)] ("1.19" ++ "_" ++ "fabric")
          ⟨some 7, some 42⟩)) ∧
    ((setKey [("1.18_forge", (⟨some 1, some 10⟩ : CacheEntry Nat)),
        ("s_all", ⟨some 2, some 20⟩)] ("1.19" ++ "_" ++ "fabric")
        (⟨some 7, some 42⟩ : CacheEntry Nat)).lookup "1.18_forge"
      = ([("1.18_forge", (⟨some 1, some 10⟩ : CacheEntry Nat)),
          ("s_all", ⟨some 2, some 20⟩)]).lookup "1.18_forge") ∧
    ((setKey [("1.18_forge", (⟨some 1, some 10⟩ : CacheEntry Nat)),
        ("s_all", ⟨some 2, some 20⟩)] ("1.19" ++ "_" ++ "fabric")
        (⟨some 7, some 42⟩ : CacheEntry Nat)).lookup ("1.19" ++ "_" ++ "fabric")
      = some ⟨some 7, some 42⟩) ∧
    (cache_data (CacheFile.malformed : CacheFile Nat) 7 "1.19" "fabric" 42
      = CacheFile.parsed [("1.19" ++ "_" ++ "fabric", ⟨some 7, some 42⟩)]) ∧
    (cache_all_data
        (CacheFile.parsed [("1.18_forge", (⟨some 1, some 10⟩ : CacheEntry Nat)),
          ("s_all", ⟨some 2, some 20⟩)]) 7 "s" 42
      = CacheFile.parsed
        (setKey [("1.18_forge", (⟨some 1, some 10⟩ : CacheEntry Nat)),
          ("s_all", ⟨some 2, some 20⟩)] ("s" ++ "_all") ⟨some 7, some 42⟩)) ∧
    ((setKey [("1.18_forge", (⟨some 1, some 10⟩ : CacheEntry Nat)),
        ("s_all", ⟨some 2, some 20⟩)] ("s" ++ "_all")
        (⟨some 7, some 42⟩ : CacheEntry Nat)).lookup "1.18_forge"
      = ([("1.18_forge", (⟨some 1, some 10⟩ : CacheEntry Nat)),
          ("s_all", ⟨some 2, some 20⟩)]).lookup "1.18_forge") ∧
    ((setKey [("1.18_forge", (⟨some 1, some 10⟩ : CacheEntry Nat)),
        ("s_all", ⟨some 2, some 20⟩)] ("s" ++ "_all")
        (⟨some 7, some 42⟩ : CacheEntry Nat)).lookup ("s" ++ "_all")
      = some ⟨some 7, some 42⟩) ∧
    (cache_all_data (CacheFile.malformed : CacheFile Nat) 7 "s" 42
      = CacheFile.parsed [("s" ++ "_all", ⟨some 7, some 42⟩)]) :=
  cache_write_frame
    [("1.18_forge", (⟨some 1, some 10⟩ : CacheEntry Nat)),
     ("s_all", ⟨some 2, some 20⟩)] 7 "1.19" "fabric" "s" 42 "1.18_forge"
    (by decide) (by decide)

/-- C4: the two `find_common_version` implementations are not equivalent: on
two packages whose common non-snapshot version set is {"1.19", "1.18"}, the
src/mod_checker.py implementation returns the newest mutually-supported
version "1.19" (it takes `sorted_versions[0]` of the descending sort) while
the src/modchecker/compatibility.py implementation returns the oldest,
"1.18" (it takes `sorted_versions[-1]`). -/
theorem find_common_version_implementations_disagree :
    mc_find_common_version pairMods = some "1.19" ∧
    compat_find_common_version pairMods = some "1.18" ∧
    intersectAll (common_version_sets pairMods) = ["1.19", "1.18"] ∧
    verLE (parse_minecraft_version "1.18") (parse_minecraft_version "1.19") = true ∧
    mc_find_common_version pairMods ≠ compat_find_common_version pairMods := by
  decide

theorem fncv_loop_mem (check : String → String → String → ModInfo)
    (mods_info : List ModInfo) (current_version loader_type : String) :
    ∀ (vs : List String) (acc : List VersionCheckResult) (v : String)
      (out : List VersionCheckResult),
      fncv_loop check mods_info current_version loader_type vs acc
        = (some v, out) →
      v ∈ vs ∧ v ≠ current_version := by
  intro vs
  induction vs with
  | nil => intro acc v out h; simp [fncv_loop] at h
  | cons tv rest ih =>
    intro acc v out h
    simp only [fncv_loop] at h
    by_cases he : (tv == current_version) = true
    · rw [if_pos he] at h
      obtain ⟨h1, h2⟩ := ih _ _ _ h
      exact ⟨List.mem_cons_of_mem _ h1, h2⟩
    · rw [if_neg he] at h
      split at h
      · injection h with h1 h2
        obtain rfl := Option.some.inj h1
        refine ⟨List.mem_cons_self _ _, fun heq => he ?_⟩
        simp [heq]
      · obtain ⟨h1, h2⟩ := ih _ _ _ h
        exact ⟨List.mem_cons_of_mem _ h1, h2⟩

/-- C5: with `allow_downgrade = false`, whenever
`find_next_compatible_version` returns a version at all, that version is
greater than or equal to `current_version` under the semantic version
comparator, and is never `current_version` itself. -/
theorem find_next_compatible_version_no_downgrade
    (check : String → String → String → ModInfo) (mods_info : List ModInfo)
    (current_version loader_type v : String) (vcs : List VersionCheckResult)
    (h : find_next_compatible_version check mods_info current_version
      loader_type false = (some v, vcs)) :
    verLE (parse_minecraft_version current_version) (parse_minecraft_version v)
      = true ∧ v ≠ current_version := by
  obtain ⟨hmem, hne⟩ :=
    fncv_loop_mem check mods_info current_version loader_type _ _ _ _ h
  have h2 : v ∈ sort_minecraft_versions
        ((mods_info.foldl (fun acc mod => acc ++ mod.versions) []).eraseDups) ∧
      verLE (parse_minecraft_version current_version)
        (parse_minecraft_version v) = true := by
    simpa [fncv_candidates] using hmem
  exact ⟨h2.2, hne⟩

/-- Concrete instantiation of the C5 theorem: from current version "1.20"
the search returns "1.21", which compares strictly above it. -/
theorem find_next_compatible_version_no_downgrade_witness :
    verLE (parse_minecraft_version "1.20") (parse_minecraft_version "1.21")
      = true ∧ "1.21" ≠ "1.20" :=
  find_next_compatible_version_no_downgrade (fun s _ _ => availMod s "v")
    [upgradeMod] "1.20" "fabric" "1.21" [⟨"1.21", true, []⟩] (by decide)

/-- C2: evaluation of the dependency walk over a release whose required
dependencies are "d1" (which resolves unavailable) and its sibling "d2"
(which resolves available): the returned flat list omits the unavailable
dependency "d1" entirely — it holds only the sibling's Availability, every
recorded entry has `available = true`, and only the visited set and the
processing trace show that "d1" was discovered and resolved — whereas the
specification requires an Availability with `available = false` to be
recorded in the list for it. The walk does continue with the sibling, as
specified. -/
theorem process_dependencies_omits_unavailable_dependency :
    process_dependencies envTwoDeps "1.20" "fabric" 5 (availMod "root" "rootv") []
      = ⟨[availMod "d2" "d2v"], ["d2", "d1"], ["d1", "d2"]⟩ ∧
    (envTwoDeps.check "d1" "1.20" "fabric").available = false ∧
    ((process_dependencies envTwoDeps "1.20" "fabric" 5
        (availMod "root" "rootv") []).results.all (fun m => m.available))
      = true := by
  decide

theorem pd_loop_spec (env : DepEnv) (version loader : String)
    (recurse : ModInfo → List String → PDResult)
    (hrec : ∀ mi p,
      ((recurse mi p).trace.Nodup ∧ ∀ x ∈ (recurse mi p).trace, x ∉ p) ∧
      (∀ x, x ∈ (recurse mi p).processed ↔ x ∈ (recurse mi p).trace ∨ x ∈ p)) :
    ∀ (l : List (Option String)) (p : List String),
      ((pd_loop env version loader recurse l p).trace.Nodup ∧
        ∀ x ∈ (pd_loop env version loader recurse l p).trace, x ∉ p) ∧
      (∀ x, x ∈ (pd_loop env version loader recurse l p).processed ↔
        x ∈ (pd_loop env version loader recurse l p).trace ∨ x ∈ p) := by
  intro l
  induction l with
  | nil =>
    intro p
    refine ⟨⟨List.nodup_nil, ?_⟩, ?_⟩ <;> simp [pd_loop]
  | cons dep rest ih =>
    intro p
    cases dep with
    | none => simpa only [pd_loop] using ih p
    | some dep_id =>
      by_cases hmem : dep_id ∈ p
      · simp only [pd_loop, if_pos hmem]
        exact ih p
      · simp only [pd_loop, if_neg hmem]
        by_cases hav : (env.check dep_id version loader).available = true
        · simp only [hav, if_true]
          obtain ⟨⟨hTn, hTnp⟩, hPn⟩ :=
            hrec (env.check dep_id version loader) (dep_id :: p)
          obtain ⟨⟨hTr, hTrp⟩, hPr⟩ :=
            ih ((recurse (env.check dep_id version loader) (dep_id :: p)).processed)
          have h1 : dep_id ∉ (recurse (env.check dep_id version loader)
              (dep_id :: p)).trace :=
            fun hx => hTnp _ hx (List.mem_cons_self _ _)
          have h2 : dep_id ∈ (recurse (env.check dep_id version loader)
              (dep_id :: p)).processed :=
            (hPn dep_id).2 (Or.inr (List.mem_cons_self _ _))
          have h3 : dep_id ∉ (pd_loop env version loader recurse rest
              ((recurse (env.check dep_id version loader)
                (dep_id :: p)).processed)).trace :=
            fun hx => hTrp _ hx h2
          refine ⟨⟨?_, ?_⟩, ?_⟩
          · refine List.nodup_cons.2 ⟨?_, List.nodup_append.2 ⟨hTn, hTr, ?_⟩⟩
            · intro hx
              rcases List.mem_append.1 hx with hx | hx
              · exact h1 hx
              · exact h3 hx
            · intro a ha hb
              exact hTrp a hb ((hPn a).2 (Or.inl ha))
          · intro x hx
            rcases List.mem_cons.1 hx with rfl | hx
            · exact hmem
            · rcases List.mem_append.1 hx with hx | hx
              · exact fun hp => hTnp x hx (List.mem_cons_of_mem _ hp)
              · exact fun hp =>
                  hTrp x hx ((hPn x).2 (Or.inr (List.mem_cons_of_mem _ hp)))
          · intro x
            rw [hPr x, hPn x]
            simp only [List.mem_cons, List.mem_append]
            tauto
        · rw [Bool.not_eq_true] at hav
          simp only [hav, Bool.false_eq_true, if_false]
          obtain ⟨⟨hTr, hTrp⟩, hPr⟩ := ih (dep_id :: p)
          have h3 : dep_id ∉ (pd_loop env version loader recurse rest
              (dep_id :: p)).trace :=
            fun hx => hTrp _ hx (List.mem_cons_self _ _)
          refine ⟨⟨List.nodup_cons.2 ⟨h3, hTr⟩, ?_⟩, ?_⟩
          · intro x hx
            rcases List.mem_cons.1 hx with rfl | hx
            · exact hmem
            · exact fun hp => hTrp x hx (List.mem_cons_of_mem _ hp)
          · intro x
            rw [hPr x]
            simp only [List.mem_cons]
            tauto

theorem pd_go_spec (env : DepEnv) (version loader : String) :
    ∀ (fuel : Nat) (l : List (Option String)) (p : List String),
      ((pd_go env version loader fuel l p).trace.Nodup ∧
        ∀ x ∈ (pd_go env version loader fuel l p).trace, x ∉ p) ∧
      (∀ x, x ∈ (pd_go env version loader fuel l p).processed ↔
        x ∈ (pd_go env version loader fuel l p).trace ∨ x ∈ p) := by
  intro fuel
  induction fuel with
  | zero =>
    intro l p
    refine pd_loop_spec env version loader _ ?_ l p
    intro mi p'
    refine ⟨⟨List.nodup_nil, ?_⟩, ?_⟩ <;> simp
  | succ f ihf =>
    intro l p
    refine pd_loop_spec env version loader _ ?_ l p
    intro mi p'
    by_cases hg : pd_guard mi = true
    · simp only [hg, if_true]
      exact ihf _ _
    · rw [Bool.not_eq_true] at hg
      simp only [hg, Bool.false_eq_true, if_false]
      refine ⟨⟨List.nodup_nil, ?_⟩, ?_⟩ <;> simp

/-- C6: in every dependency walk, a package id already present in the shared
visited set is never processed again: the trace of dependency ids that enter
the per-dependency processing branch of `process_dependencies` (the point
where the id is added to `processed_mods` and then resolved, downloaded and
recursed into) has no duplicate and avoids the initial visited set — for
every environment, depth bound, starting record and initial visited set, so
in particular when two resolved packages declare the same dependency or the
graph contains a cycle A→B→A. -/
theorem process_dependencies_never_revisits (env : DepEnv)
    (version loader : String) (fuel : Nat) (mod_info : ModInfo)
    (processed : List String) :
    (process_dependencies env version loader fuel mod_info processed).trace.Nodup ∧
    ((process_dependencies env version loader fuel mod_info
        processed).trace.all (fun x => !(processed.contains x))) = true := by
  unfold process_dependencies
  split
  · have h := pd_go_spec env version loader fuel
      (env.deps (mod_info.version_id.getD "")) processed
    refine ⟨h.1.1, ?_⟩
    rw [List.all_eq_true]
    intro x hx
    have hnp := h.1.2 x hx
    simpa using hnp
  · exact ⟨List.nodup_nil, rfl⟩

/-- C3 counterexample: the loader returned by `find_best_loader` DOES depend
on the iteration order of the loader set, and a tie between `current_loader`
and the maximum is NOT always resolved to `current_loader`. With one mod
available exactly under "forge" and "quilt" (counts: forge 1, quilt 1,
fabric 0, neoforge 0), current loader "forge" and preferred loader "quilt",
iterating the set as [forge, quilt, fabric, neoforge] returns "quilt" — the
tied preferred loader overrides the already-selected current loader — while
iterating it as [quilt, forge, fabric, neoforge] returns "forge"; both
orders enumerate the same loader set. -/
theorem find_best_loader_depends_on_iteration_order :
    (find_best_loader loaderOracle ["forge", "quilt", "fabric", "neoforge"]
      oneModRef "1.20" "forge" (some "quilt")).1 = "quilt" ∧
    (find_best_loader loaderOracle ["quilt", "forge", "fabric", "neoforge"]
      oneModRef "1.20" "forge" (some "quilt")).1 = "forge" ∧
    loaderCount loaderOracle oneModRef "1.20" "forge" = 1 ∧
    loaderCount loaderOracle oneModRef "1.20" "quilt" = 1 ∧
    loaderCount loaderOracle oneModRef "1.20" "fabric" = 0 ∧
    loaderCount loaderOracle oneModRef "1.20" "neoforge" = 0 ∧
    ["forge", "quilt", "fabric", "neoforge"].Perm allLoaders ∧
    ["quilt", "forge", "fabric", "neoforge"].Perm allLoaders := by
  decide

theorem fbl_better_true_cases (c bc : Nat) (l cur : String)
    (pref : Option String) (h : fbl_better c bc l cur pref = true) :
    bc < c ∨ (c = bc ∧ (l = cur ∨ ∃ p, pref = some p ∧ l = p)) := by
  unfold fbl_better at h
  by_cases h1 : bc < c
  · exact Or.inl h1
  · rw [if_neg h1] at h
    by_cases h2 : (c == bc) = true
    · rw [if_pos h2] at h
      have hcbc : c = bc := eq_of_beq h2
      by_cases h3 : (l == cur) = true
      · exact Or.inr ⟨hcbc, Or.inl (eq_of_beq h3)⟩
      · rw [if_neg h3] at h
        cases hp : pref with
        | none => rw [hp] at h; simp at h
        | some p =>
          rw [hp] at h
          have h' : (!(p == "") && (l == p)) = true := h
          rw [Bool.and_eq_true] at h'
          exact Or.inr ⟨hcbc, Or.inr ⟨p, rfl, eq_of_beq h'.2⟩⟩
    · rw [if_neg h2] at h
      simp at h

theorem fbl_fold_keeps (check : String → String → String → ModInfo)
    (mods : List ModRef) (version current_loader : String)
    (preferred_loader : Option String)
    (hpref : ∀ p, preferred_loader = some p → p = current_loader ∨
      loaderCount check mods version p <
        loaderCount check mods version current_loader) :
    ∀ (l_list : List String) (st : FBLState),
      (∀ l ∈ l_list, loaderCount check mods version l ≤
        loaderCount check mods version current_loader) →
      st.best_loader = current_loader →
      st.best_count = loaderCount check mods version current_loader →
      ((l_list.foldl (fbl_step check mods version current_loader
          preferred_loader) st).best_loader = current_loader ∧
       (l_list.foldl (fbl_step check mods version current_loader
          preferred_loader) st).best_count
          = loaderCount check mods version current_loader) := by
  intro l_list
  induction l_list with
  | nil => intro st _ h1 h2; exact ⟨h1, h2⟩
  | cons l rest ih =>
    intro st hle h1 h2
    rw [List.foldl_cons]
    have hstep :
        (fbl_step check mods version current_loader preferred_loader
          st l).best_loader = current_loader ∧
        (fbl_step check mods version current_loader preferred_loader
          st l).best_count = loaderCount check mods version current_loader := by
      simp only [fbl_step]
      split
      next hbet =>
        rcases fbl_better_true_cases _ _ _ _ _ hbet with hgt | ⟨heq, hcase⟩
        · rw [h2] at hgt
          exact ((Nat.not_lt.mpr (hle l (List.mem_cons_self _ _))) hgt).elim
        · have hcnt : loaderCount check mods version l
              = loaderCount check mods version current_loader := heq.trans h2
          rcases hcase with rfl | ⟨p, hp, rfl⟩
          · exact ⟨rfl, hcnt⟩
          · rcases hpref l hp with rfl | hlt
            · exact ⟨rfl, hcnt⟩
            · rw [hcnt] at hlt
              exact ((Nat.lt_irrefl _) hlt).elim
      next => exact ⟨h1, h2⟩
    exact ih _ (fun x hx => hle x (List.mem_cons_of_mem _ hx)) hstep.1 hstep.2

theorem fbl_fold_reaches (check : String → String → String → ModInfo)
    (mods : List ModRef) (version current_loader : String)
    (preferred_loader : Option String)
    (hpref : ∀ p, preferred_loader = some p → p = current_loader ∨
      loaderCount check mods version p <
        loaderCount check mods version current_loader) :
    ∀ (l_list : List String) (st : FBLState),
      (∀ l ∈ l_list, loaderCount check mods version l ≤
        loaderCount check mods version current_loader) →
      st.best_count ≤ loaderCount check mods version current_loader →
      current_loader ∈ l_list →
      ((l_list.foldl (fbl_step check mods version current_loader
          preferred_loader) st).best_loader = current_loader ∧
       (l_list.foldl (fbl_step check mods version current_loader
          preferred_loader) st).best_count
          = loaderCount check mods version current_loader) := by
  intro l_list
  induction l_list with
  | nil => intro st _ _ hmem; exact absurd hmem (List.not_mem_nil _)
  | cons l rest ih =>
    intro st hle hbc hmem
    rw [List.foldl_cons]
    by_cases hl : l = current_loader
    · subst hl
      have hstep :
          (fbl_step check mods version l preferred_loader st l).best_loader = l ∧
          (fbl_step check mods version l preferred_loader st l).best_count
            = loaderCount check mods version l := by
        simp only [fbl_step]
        have hbet : fbl_better (check_loader_compatibility check mods
            version l).2 st.best_count l l preferred_loader = true := by
          by_cases hgt : st.best_count
              < (check_loader_compatibility check mods version l).2
          · simp [fbl_better, gt_iff_lt, hgt]
          · have heq : (check_loader_compatibility check mods version l).2
                = st.best_count :=
              Nat.le_antisymm (Nat.not_lt.1 hgt) hbc
            simp [fbl_better, gt_iff_lt, heq]
        rw [if_pos hbet]
        exact ⟨rfl, rfl⟩
      exact fbl_fold_keeps check mods version l preferred_loader hpref rest _
        (fun x hx => hle x (List.mem_cons_of_mem _ hx)) hstep.1 hstep.2
    · have hmem' : current_loader ∈ rest := by
        rcases List.mem_cons.1 hmem with h | h
        · exact absurd h.symm hl
        · exact h
      refine ih _ (fun x hx => hle x (List.mem_cons_of_mem _ hx)) ?_ hmem'
      simp only [fbl_step]
      split
      · exact hle l (List.mem_cons_self _ _)
      · exact hbc

/-- C3 amended: the result of `find_best_loader` can depend on the iteration
order of the loader set, and a preferred loader that ties the maximum can
override the current loader when iterated after it (see the counterexample);
what does hold, for EVERY iteration order of the loader enumeration, is:
whenever `current_loader`'s compatible count ties the maximum and
`preferred_loader` is absent, equal to `current_loader`, or strictly below
the maximum, the returned loader is `current_loader`. -/
theorem find_best_loader_current_loader_wins
    (check : String → String → String → ModInfo) (loader_order : List String)
    (mods : List ModRef) (version current_loader : String)
    (preferred_loader : Option String)
    (hmem : current_loader ∈ loader_order)
    (hmax : ∀ l ∈ loader_order, loaderCount check mods version l ≤
      loaderCount check mods version current_loader)
    (hpref : ∀ p, preferred_loader = some p → p = current_loader ∨
      loaderCount check mods version p <
        loaderCount check mods version current_loader) :
    (find_best_loader check loader_order mods version current_loader
      preferred_loader).1 = current_loader :=
  (fbl_fold_reaches check mods version current_loader preferred_loader hpref
    loader_order ⟨current_loader, 0, [], []⟩ hmax (Nat.zero_le _) hmem).1

/-- Concrete instantiation of the amended C3 theorem: with no preferred
loader, the tied current loader "forge" is returned even when another tied
loader was iterated first. -/
theorem find_best_loader_current_loader_wins_witness :
    (find_best_loader loaderOracle ["quilt", "forge", "fabric", "neoforge"]
      oneModRef "1.20" "forge" none).1 = "forge" :=
  find_best_loader_current_loader_wins loaderOracle
    ["quilt", "forge", "fabric", "neoforge"] oneModRef "1.20" "forge" none
    (by decide) (by decide) (fun p hp => nomatch hp)
